import Mathlib

/-!
# Finance tracker report aggregation: shallow embedding

A shallow embedding of the report-aggregation, insight-derivation and
period-navigation logic of the finance-tracker repository:

* `backend/controllers/reportController.js` — `getReports` (monthly, MySQL),
  `getWeeklyReports`, `getMonthlyReports` (yearly);
* the `Reports` component revisions — `generateInsights`, `getTotals`,
  `getMondayOfWeek`, `canNavigateNext`, and the per-category percentage table.

Calendar dates are modelled as integer day numbers (days since the Unix
epoch); amounts as exact rationals (`DECIMAL(10,2)` in the schema).  The SQL
queries are modelled by the list computations they denote on the set of one
user's transactions.
-/

namespace FinanceTracker

/-- Transaction kind: the `type1` / `type` column, one of income or expense. -/
inductive Kind where
  | income : Kind
  | expense : Kind
deriving DecidableEq, BEq, Repr

/-- One transaction row of the `transactions` table (one user's view):
`type1`, `category`, `amount`, `dateToday` (as an epoch day number). -/
structure Txn where
  kind : Kind
  category : String
  amount : ℚ
  occurredOn : ℤ
deriving DecidableEq, Repr

/-- `dateToday BETWEEN lo AND hi` (inclusive both ends). -/
def inInterval (lo hi : ℤ) (t : Txn) : Bool :=
  decide (lo ≤ t.occurredOn) && decide (t.occurredOn ≤ hi)

/-- Does the transaction have the given kind (`type1 = k`)? -/
def isKind (k : Kind) (t : Txn) : Bool := decide (t.kind = k)

/-- `SUM(amount)` over a list of rows. -/
def sumAmounts (ts : List Txn) : ℚ := (ts.map (·.amount)).sum

/-- `SELECT SUM(amount) ... WHERE type1 = k` over the given rows. -/
def kindTotal (ts : List Txn) (k : Kind) : ℚ := sumAmounts (ts.filter (isKind k))

/-- The `{ income, expense }` totals object, both fields present. -/
structure Totals where
  income : ℚ
  expense : ℚ
deriving DecidableEq, Repr

/-- `formattedTotals` in `getWeeklyReports` / `formattedYearlyTotals` in
`getMonthlyReports`: initialised to `{ income: 0, expense: 0 }`, then each
kind present in the `GROUP BY type1` rows is set to its summed amount.  Since
the sum over no rows is 0, each field always equals the kind's sum. -/
def formatTotals (ts : List Txn) : Totals :=
  { income := kindTotal ts .income, expense := kindTotal ts .expense }

/-- A totals object whose fields may be absent (a plain `{}` object in JS):
`none` models a missing field (`undefined` on access). -/
structure TotalsOpt where
  income : Option ℚ
  expense : Option ℚ
deriving DecidableEq, Repr

/-- `formattedTotals` in the MySQL `getReports`: initialised to `{}`, then a
field is created only for each kind that has a `GROUP BY type1` row, i.e.
only for kinds with at least one transaction in the month. -/
def formatTotalsOpt (ts : List Txn) : TotalsOpt :=
  { income := if ts.any (isKind .income) then some (kindTotal ts .income) else none
    expense := if ts.any (isKind .expense) then some (kindTotal ts .expense) else none }

/-- Distinct values of a list, keeping the first occurrence of each (the
group keys of a `GROUP BY`, determinised to first-seen order — SQL leaves
the pre-`ORDER BY` row order unspecified). -/
def dedupFirst : List String → List String
  | [] => []
  | c :: cs => c :: (dedupFirst cs).filter (fun d => decide (d ≠ c))

/-- The `GROUP BY category` aggregation over rows, as performed by the SQL /
Mongo group stage: one row per distinct category (first-seen order) with the
category's summed amount. -/
def groupByCat (ts : List Txn) : List (String × ℚ) :=
  (dedupFirst (ts.map (·.category))).map
    (fun c => (c, sumAmounts (ts.filter (fun t => decide (t.category = c)))))

/-- `ORDER BY total DESC`: descending by summed amount. -/
def catGe (a b : String × ℚ) : Prop := b.2 ≤ a.2

instance : DecidableRel catGe := fun a b => inferInstanceAs (Decidable (b.2 ≤ a.2))

instance : IsTotal (String × ℚ) catGe := ⟨fun a b => le_total b.2 a.2⟩

instance : IsTrans (String × ℚ) catGe := ⟨fun _ _ _ h1 h2 => le_trans h2 h1⟩

/-- `formattedExpensesByCategory`: restrict to `type1 = expense`, group by
category, sum, sort descending by summed amount.  One concrete execution of
the query, used by the report pipeline below; the database itself promises
only the descending order, nothing about the relative order of equal sums
(see `isValidCategoryBreakdown` for the orderless contract). -/
def categoryBreakdown (ts : List Txn) : List (String × ℚ) :=
  List.insertionSort catGe (groupByCat (ts.filter (isKind .expense)))

/-- Everything `GROUP BY category ORDER BY total DESC` (and the Mongo
`$group` + `$sort`) guarantees about the returned rows: they are the
expense-category groups with summed amounts, in some non-increasing order
by summed amount.  Neither engine specifies the relative order of rows with
equal totals, so any such list is an admissible result. -/
def isValidCategoryBreakdown (ts : List Txn) (l : List (String × ℚ)) : Prop :=
  l.Perm (groupByCat (ts.filter (isKind .expense))) ∧ l.Sorted catGe

/-- One entry of a sub-period breakdown: the bucket key (an epoch day for the
weekly report, a month index for the yearly report) with the bucket's income
and expense sums; a kind absent from the bucket's rows stays 0 per the
`{ date, income: 0, expense: 0 }` initialisation. -/
structure BucketEntry where
  bucket : ℤ
  income : ℚ
  expense : ℚ
deriving DecidableEq, Repr

/-- The distinct bucket keys of the rows, in ascending (chronological) order
(`ORDER BY dateToday` / `ORDER BY month`). -/
def bucketKeys (key : Txn → ℤ) (ts : List Txn) : List ℤ :=
  List.insertionSort (· ≤ ·) ((ts.map key).dedup)

/-- The breakdown-map entry for one bucket key. -/
def bucketEntry (key : Txn → ℤ) (ts : List Txn) (b : ℤ) : BucketEntry :=
  { bucket := b
    income := sumAmounts ((ts.filter (fun t => decide (key t = b))).filter (isKind .income))
    expense := sumAmounts ((ts.filter (fun t => decide (key t = b))).filter (isKind .expense)) }

/-- `formattedDailyBreakdown` / `formattedMonthlyBreakdown`: one entry per
bucket key that occurs in the rows (grouped by `(bucket, type1)`, folded into
a map keyed by bucket, values taken in key order). -/
def breakdownBy (key : Txn → ℤ) (ts : List Txn) : List BucketEntry :=
  (bucketKeys key ts).map (bucketEntry key ts)

/-- Response data of `getWeeklyReports`. -/
structure WeeklyReport where
  weekRange : ℤ × ℤ
  totals : Totals
  expensesByCategory : List (String × ℚ)
  dailyBreakdown : List BucketEntry
  hasTransactions : Bool
deriving DecidableEq, Repr

/-- `getWeeklyReports` (MySQL): week interval `[weekStart, weekStart + 6]`;
if no transaction falls in it (`COUNT(*) = 0`) return the explicit zero
report, otherwise aggregate the filtered rows. -/
def getWeeklyReports (ts : List Txn) (weekStart : ℤ) : WeeklyReport :=
  let weekEnd := weekStart + 6
  let f := ts.filter (inInterval weekStart weekEnd)
  if f.isEmpty then
    { weekRange := (weekStart, weekEnd), totals := ⟨0, 0⟩, expensesByCategory := []
      dailyBreakdown := [], hasTransactions := false }
  else
    { weekRange := (weekStart, weekEnd)
      totals := formatTotals f
      expensesByCategory := categoryBreakdown f
      dailyBreakdown := breakdownBy (·.occurredOn) f
      hasTransactions := true }

/-- Response data of the monthly `getReports` (MySQL). -/
structure MonthlyReport where
  totals : TotalsOpt
  expensesByCategory : List (String × ℚ)
  monthlyData : Totals
  hasTransactions : Bool
deriving DecidableEq, Repr

/-- `getReports` (MySQL): the month is the day interval `[lo, hi]` denoted by
the `DATE_FORMAT(dateToday, %Y-%m) = month` filter.  On no transactions the
explicit zero report (with both `totals` fields present and 0) is returned;
otherwise `formattedTotals` starts from `{}` and only kinds with rows get a
field, while `monthlyData` starts from zeroes. -/
def getReports (ts : List Txn) (lo hi : ℤ) : MonthlyReport :=
  let f := ts.filter (inInterval lo hi)
  if f.isEmpty then
    { totals := ⟨some 0, some 0⟩, expensesByCategory := []
      monthlyData := ⟨0, 0⟩, hasTransactions := false }
  else
    { totals := formatTotalsOpt f
      expensesByCategory := categoryBreakdown f
      monthlyData := formatTotals f
      hasTransactions := true }

/-- Response data of the yearly `getMonthlyReports`. -/
structure YearlyReport where
  yearlyTotals : Totals
  monthlyBreakdown : List BucketEntry
  categoryBreakdown : List (String × ℚ)
  hasTransactions : Bool
deriving DecidableEq, Repr

/-- `getMonthlyReports` (MySQL): the year is the day interval `[lo, hi]`
denoted by the `YEAR(dateToday) = year` filter, and `monthOf` models the
database function `DATE_FORMAT(dateToday, %Y-%m)` mapping a day to its
calendar month (as a sortable month index).  `hasTransactions` is
`monthlyData.length > 0`, i.e. whether any row falls in the year. -/
def getMonthlyReports (monthOf : ℤ → ℤ) (ts : List Txn) (lo hi : ℤ) : YearlyReport :=
  let f := ts.filter (inInterval lo hi)
  if f.isEmpty then
    { yearlyTotals := ⟨0, 0⟩, monthlyBreakdown := [], categoryBreakdown := []
      hasTransactions := false }
  else
    { yearlyTotals := formatTotals f
      monthlyBreakdown := breakdownBy (fun t => monthOf t.occurredOn) f
      categoryBreakdown := categoryBreakdown f
      hasTransactions := true }

/-! ## JavaScript number model for the frontend computations

The `Reports` component computes percentages with IEEE division, whose
division by zero produces `Infinity`, `-Infinity` or `NaN`.  `JsNum` tracks
those non-finite outcomes; finite values are exact rationals. -/

/-- A JavaScript number: finite, or one of the non-finite values produced by
division by zero. -/
inductive JsNum where
  | nan : JsNum
  | posInf : JsNum
  | negInf : JsNum
  | num : ℚ → JsNum
deriving DecidableEq, Repr

/-- JS division of finite numbers: `a / 0` is `Infinity`, `-Infinity` or
`NaN` according to the sign of `a`. -/
def jdiv (a b : ℚ) : JsNum :=
  if b ≠ 0 then .num (a / b)
  else if 0 < a then .posInf
  else if a < 0 then .negInf
  else .nan

/-- Multiplication of a JS number by the positive literal 100 (as in
`(x / y) * 100`): non-finite values are preserved. -/
def jmul100 : JsNum → JsNum
  | .nan => .nan
  | .posInf => .posInf
  | .negInf => .negInf
  | .num q => .num (q * 100)

/-- `toFixed(1)` rounding of an exact value: the nearest multiple of 1/10,
ties toward the larger value (ECMAScript picks the larger candidate `n`). -/
def round1 (x : ℚ) : ℚ := (⌊x * 10 + 1 / 2⌋ : ℚ) / 10

/-- `Number(x.toFixed(1))` — the numeric value the rounded string compares
as; `NaN`/`Infinity` round-trip through their string forms unchanged. -/
def jsToFixed1 : JsNum → JsNum
  | .num q => .num (round1 q)
  | x => x

/-- `Math.abs` (on the coerced numeric value). -/
def jsAbs : JsNum → JsNum
  | .nan => .nan
  | .posInf => .posInf
  | .negInf => .posInf
  | .num q => .num |q|

/-- JS `x > c` for a numeric literal `c`: false when `x` is `NaN`. -/
def jsGt (x : JsNum) (c : ℚ) : Bool :=
  match x with
  | .nan => false
  | .posInf => true
  | .negInf => false
  | .num q => decide (c < q)

/-- JS `x < c` for a numeric literal `c`: false when `x` is `NaN`. -/
def jsLt (x : JsNum) (c : ℚ) : Bool :=
  match x with
  | .nan => false
  | .posInf => false
  | .negInf => true
  | .num q => decide (q < c)

/-- Decimal rendering of a JS number for message interpolation (the exact
digit string of `Intl.NumberFormat` / `toFixed` output is abstracted; only
the value and non-emptiness matter to the properties below). -/
def fmtNum : JsNum → String
  | .nan => "NaN"
  | .posInf => "Infinity"
  | .negInf => "-Infinity"
  | .num q => toString q.num ++ "d" ++ toString q.den

/-- `formatCurrency`: INR currency rendering of a finite amount. -/
def formatCurrency (x : ℚ) : String := "Rs" ++ fmtNum (.num x)

/-! ## Insight engine (`generateInsights` in the `Reports` component) -/

/-- One generated insight (`type` is the source's `warning`/`success`/
`danger`, which the spec maps to caution/informational/critical). -/
structure Insight where
  type : String
  title : String
  message : String
  suggestion : String
deriving DecidableEq, Repr

/-- The report fields `generateInsights` reads, after the `getTotals` /
`getPreviousTotals` normalisation and the report-type dispatch of
`expenseCategories` (`categoryBreakdown` for yearly, `expensesByCategory`
otherwise). -/
structure RData where
  hasTransactions : Bool
  totals : Totals
  expenseCategories : List (String × ℚ)
deriving DecidableEq, Repr

/-- The top-category share: `((topCategory.amount / totalExpenses) * 100)
.toFixed(1)` — computed with no guard on `totalExpenses` in the cited
revision, so a zero total yields a non-finite value. -/
def rule1Pct (totalsExpense : ℚ) (topAmount : ℚ) : JsNum :=
  jsToFixed1 (jmul100 (jdiv topAmount totalsExpense))

/-- Insight rule 1 (top spending category): fires whenever the expense
category list is non-empty. -/
def ruleOne (r : RData) : List Insight :=
  match r.expenseCategories with
  | [] => []
  | top :: _ =>
    let percentage := rule1Pct r.totals.expense top.2
    [{ type := "warning"
       title := "Highest Spending Category"
       message := top.1 ++ " accounts for " ++ fmtNum percentage ++
         "% of your total expenses (" ++ formatCurrency top.2 ++ ")."
       suggestion :=
         if jsGt percentage 40 then
           "Consider reviewing and reducing expenses in this category."
         else
           "This seems reasonable for your spending pattern." }]

/-- Insight rule 2 (comparison with previous period): guarded by the
previous data being present with `hasTransactions`; the percentage is 0
(not a division) unless the previous expense total is positive. -/
def ruleTwo (totals : Totals) (previousPeriodData : Option RData)
    (periodName : String) : List Insight :=
  match previousPeriodData with
  | none => []
  | some p =>
    if p.hasTransactions then
      let prevTotals := p.totals
      let expenseChange := totals.expense - prevTotals.expense
      let expenseChangePercent : JsNum :=
        if 0 < prevTotals.expense then
          jsToFixed1 (jmul100 (jdiv expenseChange prevTotals.expense))
        else .num 0
      if jsGt (jsAbs expenseChangePercent) 10 then
        [{ type := if 0 < expenseChange then "warning" else "success"
           title := "Spending " ++
             (if 0 < expenseChange then "Increased" else "Decreased")
           message := "Your expenses " ++
             (if 0 < expenseChange then "increased" else "decreased") ++
             " by " ++ fmtNum (jsAbs expenseChangePercent) ++
             "% compared to last " ++ periodName ++ " (" ++
             (if 0 < expenseChange then "+" else "") ++
             formatCurrency expenseChange ++ ")."
           suggestion :=
             if 0 < expenseChange then
               "Consider reviewing your recent purchases to identify areas for cost reduction."
             else
               "Great job on reducing your expenses!" }]
      else []
    else []

/-- The savings rate as computed by the code: `(savings / income * 100)
.toFixed(1)` when income is positive, the number 0 otherwise. -/
def savingsRateJs (totals : Totals) : JsNum :=
  if 0 < totals.income then
    jsToFixed1 (jmul100 (jdiv (totals.income - totals.expense) totals.income))
  else .num 0

/-- Insight rule 3 (budget health): an if/else-if chain on savings and the
savings rate. -/
def ruleThree (totals : Totals) : List Insight :=
  let savings := totals.income - totals.expense
  let savingsRate := savingsRateJs totals
  if savings < 0 then
    [{ type := "danger"
       title := "Spending Exceeds Income"
       message := "You spent " ++ formatCurrency |savings| ++
         " more than your income this period."
       suggestion := "Review your expenses and consider creating a budget to avoid overspending." }]
  else if jsLt savingsRate 10 then
    [{ type := "warning"
       title := "Low Savings Rate"
       message := "You saved only " ++ fmtNum savingsRate ++
         "% of your income this period."
       suggestion := "Consider increasing your savings rate to at least 20% for better financial health." }]
  else if jsGt savingsRate 30 then
    [{ type := "success"
       title := "Excellent Savings Rate"
       message := "You saved " ++ fmtNum savingsRate ++
         "% of your income this period."
       suggestion := "Great financial discipline! Consider investing your savings for long-term growth." }]
  else []

/-- `generateInsights`: returns `[]` unless the current report is present
with `hasTransactions`; otherwise pushes the three rules in order. -/
def generateInsights (reportData previousPeriodData : Option RData)
    (periodName : String) : List Insight :=
  match reportData with
  | none => []
  | some r =>
    if r.hasTransactions then
      ruleOne r ++ ruleTwo r.totals previousPeriodData periodName ++ ruleThree r.totals
    else []

/-- `getTotals` for the weekly report type: reads `reportData.totals`. -/
def toRDataWeekly (w : WeeklyReport) : RData :=
  ⟨w.hasTransactions, w.totals, w.expensesByCategory⟩

/-- `getTotals` for the monthly report type: reads `monthlyData.income` and
`monthlyData.expense` (each defaulted through a harmless numeric fallback);
`expenseCategories` is `expensesByCategory`. -/
def toRDataMonthly (m : MonthlyReport) : RData :=
  ⟨m.hasTransactions, m.monthlyData, m.expensesByCategory⟩

/-- `getTotals` for the yearly report type: reads `yearlyTotals`;
`expenseCategories` is `categoryBreakdown`. -/
def toRDataYearly (y : YearlyReport) : RData :=
  ⟨y.hasTransactions, y.yearlyTotals, y.categoryBreakdown⟩

/-- The per-category `PERCENTAGE` column of the category table: explicitly
guarded, yielding the string value of 0 when the expense total is not
positive. -/
def tablePercentage (totalsExpense amount : ℚ) : JsNum :=
  if 0 < totalsExpense then jsToFixed1 (jmul100 (jdiv amount totalsExpense))
  else .num 0

/-! ## Period navigation and week resolution -/

/-- Milliseconds per day: `Date` values compare as millisecond instants. -/
def msPerDay : ℤ := 86400000

/-- JS `getDay` on an epoch-day number: 0 = Sunday … 6 = Saturday (epoch day
0, 1970-01-01, was a Thursday, `getDay = 4`). -/
def jsGetDay (n : ℤ) : ℤ := (n + 4) % 7

/-- `getMondayOfWeek`: `diff = date - day + (day === 0 ? -6 : 1)`. -/
def getMondayOfWeek (n : ℤ) : ℤ :=
  let day := jsGetDay n
  n - day + (if day = 0 then -6 else 1)

/-- `canNavigateNext`, weekly branch: compares the current week's start (the
UTC-midnight instant of the Monday, day number `currentPeriod`) with the
instant `today`. -/
def canNavigateNextWeekly (currentPeriod todayMs : ℤ) : Bool :=
  decide (currentPeriod * msPerDay < todayMs)

/-- `canNavigateNext`, monthly branch: compares the first of the current
month with the first of today's month (both at midnight), i.e. the month
indices. -/
def canNavigateNextMonthly (currentMonthIdx todayMonthIdx : ℤ) : Bool :=
  decide (currentMonthIdx < todayMonthIdx)

/-- `canNavigateNext`, yearly branch: `currentYear < today.getFullYear()`. -/
def canNavigateNextYearly (currentYear todayYear : ℤ) : Bool :=
  decide (currentYear < todayYear)

/-- The monthly-only `Reports` component's `canNavigateNext`: `today` keeps
its time of day after `setDate(1)`, so the comparison of the two `Date`
instants is lexicographic on (month index, milliseconds past the month
start's midnight). -/
def canNavigateNextTimed (currentMonthIdx todayMonthIdx todayTimeMs : ℤ) : Bool :=
  decide (currentMonthIdx < todayMonthIdx ∨
    (currentMonthIdx = todayMonthIdx ∧ 0 < todayTimeMs))

/-- Strict ordering of calendar dates represented as (coarse unit, position
within the unit) pairs, lexicographically. -/
def dateLt (a b : ℤ × ℤ) : Prop := a.1 < b.1 ∨ (a.1 = b.1 ∧ a.2 < b.2)

/-! ## Helper lemmas -/

theorem mem_dedupFirst {c : String} : ∀ {l : List String}, c ∈ dedupFirst l ↔ c ∈ l
  | [] => Iff.rfl
  | d :: l => by
    by_cases h : c = d
    · subst h; simp [dedupFirst]
    · simp [dedupFirst, h, mem_dedupFirst (l := l)]

theorem nodup_dedupFirst : ∀ l : List String, (dedupFirst l).Nodup
  | [] => List.nodup_nil
  | d :: l => by
    rw [dedupFirst, List.nodup_cons]
    constructor
    · intro hmem
      have := List.of_mem_filter hmem
      simp at this
    · exact (nodup_dedupFirst l).filter _

@[simp]
theorem sumAmounts_nil : sumAmounts [] = 0 := rfl

@[simp]
theorem sumAmounts_cons (t : Txn) (ts : List Txn) :
    sumAmounts (t :: ts) = t.amount + sumAmounts ts := by
  simp [sumAmounts]

theorem sumAmounts_append (ts us : List Txn) :
    sumAmounts (ts ++ us) = sumAmounts ts + sumAmounts us := by
  simp [sumAmounts]

theorem sumAmounts_perm {ts us : List Txn} (h : ts.Perm us) :
    sumAmounts ts = sumAmounts us := by
  simpa [sumAmounts] using (h.map (fun t => t.amount)).sum_eq

/-- Partitioning a sum of amounts along a key function: summing, over a
duplicate-free list of keys covering all rows, the amount-sums of the rows
at each key gives the amount-sum of all rows. -/
theorem sum_map_filter_eq {κ : Type} [DecidableEq κ] (key : Txn → κ) :
    ∀ l : List κ, l.Nodup → ∀ ts : List Txn, (∀ t ∈ ts, key t ∈ l) →
      (l.map (fun k => sumAmounts (ts.filter (fun t => decide (key t = k))))).sum
        = sumAmounts ts
  | [], _, ts, hcov => by
    cases ts with
    | nil => simp
    | cons t ts => exact absurd (hcov t (List.mem_cons_self t ts)) (List.not_mem_nil _)
  | c :: l, hnd, ts, hcov => by
    have hc : c ∉ l := (List.nodup_cons.mp hnd).1
    have hl : l.Nodup := (List.nodup_cons.mp hnd).2
    have hperm :
        List.Perm
          (ts.filter (fun t => decide (key t = c)) ++
            ts.filter (fun t => !decide (key t = c))) ts :=
      List.filter_append_perm _ ts
    have hcov₂ : ∀ t ∈ ts.filter (fun t => !decide (key t = c)), key t ∈ l := by
      intro t ht
      have hmem := List.mem_of_mem_filter ht
      have hne : ¬ key t = c := by simpa using List.of_mem_filter ht
      rcases List.mem_cons.mp (hcov t hmem) with h | h
      · exact absurd h hne
      · exact h
    have hrest : ∀ k ∈ l,
        ts.filter (fun t => decide (key t = k)) =
          (ts.filter (fun t => !decide (key t = c))).filter
            (fun t => decide (key t = k)) := by
      intro k hk
      rw [List.filter_filter]
      apply List.filter_congr
      intro t _
      by_cases hkt : key t = k
      · have hkc : k ≠ c := fun hkc => hc (hkc ▸ hk)
        have : key t ≠ c := by rw [hkt]; exact hkc
        simp [hkt, this, hkc]
      · simp [hkt]
    calc (List.map
            (fun k => sumAmounts (ts.filter (fun t => decide (key t = k)))) (c :: l)).sum
        = sumAmounts (ts.filter (fun t => decide (key t = c))) +
            (l.map (fun k =>
              sumAmounts (ts.filter (fun t => decide (key t = k))))).sum := by
          simp
      _ = sumAmounts (ts.filter (fun t => decide (key t = c))) +
            (l.map (fun k =>
              sumAmounts ((ts.filter (fun t => !decide (key t = c))).filter
                (fun t => decide (key t = k))))).sum := by
          congr 1
          exact congrArg List.sum (List.map_congr_left (fun k hk => by rw [hrest k hk]))
      _ = sumAmounts (ts.filter (fun t => decide (key t = c))) +
            sumAmounts (ts.filter (fun t => !decide (key t = c))) := by
          rw [sum_map_filter_eq key l hl _ hcov₂]
      _ = sumAmounts ts := by rw [← sumAmounts_append]; exact sumAmounts_perm hperm

theorem groupByCat_keys (ts : List Txn) :
    (groupByCat ts).map (·.1) = dedupFirst (ts.map (·.category)) := by
  rw [groupByCat, List.map_map]
  exact List.map_id'' (fun c => rfl) _

theorem groupByCat_keys_nodup (ts : List Txn) :
    ((groupByCat ts).map (·.1)).Nodup := by
  rw [groupByCat_keys]; exact nodup_dedupFirst _

theorem groupByCat_snd (ts : List Txn) {e : String × ℚ} (he : e ∈ groupByCat ts) :
    e.2 = sumAmounts (ts.filter (fun t => decide (t.category = e.1))) := by
  rcases List.mem_map.mp he with ⟨c, _, rfl⟩
  rfl

theorem groupByCat_fst (ts : List Txn) {e : String × ℚ} (he : e ∈ groupByCat ts) :
    e.1 ∈ ts.map (·.category) := by
  rcases List.mem_map.mp he with ⟨c, hc, rfl⟩
  exact mem_dedupFirst.mp hc

theorem groupByCat_snd_sum (ts : List Txn) :
    ((groupByCat ts).map (·.2)).sum = sumAmounts ts := by
  rw [groupByCat, List.map_map]
  have hcov : ∀ t ∈ ts, t.category ∈ dedupFirst (ts.map (·.category)) := by
    intro t ht
    exact mem_dedupFirst.mpr (List.mem_map.mpr ⟨t, ht, rfl⟩)
  simpa using sum_map_filter_eq (fun t => t.category) _ (nodup_dedupFirst _) ts hcov

theorem groupByCat_eq_nil_iff (ts : List Txn) : groupByCat ts = [] ↔ ts = [] := by
  cases ts with
  | nil => simp [groupByCat, dedupFirst]
  | cons t ts => simp [groupByCat, dedupFirst]

theorem categoryBreakdown_perm (ts : List Txn) :
    (categoryBreakdown ts).Perm (groupByCat (ts.filter (isKind .expense))) :=
  List.perm_insertionSort _ _

theorem categoryBreakdown_sorted (ts : List Txn) :
    (categoryBreakdown ts).Sorted catGe :=
  List.sorted_insertionSort _ _

theorem categoryBreakdown_snd_sum (ts : List Txn) :
    ((categoryBreakdown ts).map (·.2)).sum = kindTotal ts .expense := by
  rw [((categoryBreakdown_perm ts).map (·.2)).sum_eq, groupByCat_snd_sum]
  rfl

theorem bucketKeys_nodup (key : Txn → ℤ) (ts : List Txn) :
    (bucketKeys key ts).Nodup :=
  (List.perm_insertionSort _ _).nodup_iff.mpr (List.nodup_dedup _)

theorem bucketKeys_sorted (key : Txn → ℤ) (ts : List Txn) :
    (bucketKeys key ts).Sorted (· < ·) :=
  List.Sorted.lt_of_le (List.sorted_insertionSort _ _) (bucketKeys_nodup key ts)

theorem mem_bucketKeys {key : Txn → ℤ} {ts : List Txn} {b : ℤ} :
    b ∈ bucketKeys key ts ↔ b ∈ ts.map key := by
  rw [bucketKeys, (List.perm_insertionSort _ _).mem_iff, List.mem_dedup]

theorem breakdownBy_kind_sum (key : Txn → ℤ) (ts : List Txn) (k : Kind) :
    ((breakdownBy key ts).map
        (fun e => sumAmounts ((ts.filter (fun t => decide (key t = e.bucket))).filter
          (isKind k)))).sum = kindTotal ts k := by
  rw [breakdownBy, List.map_map]
  have hswap : ∀ b : ℤ,
      (ts.filter (fun t => decide (key t = b))).filter (isKind k) =
        (ts.filter (isKind k)).filter (fun t => decide (key t = b)) := by
    intro b
    rw [List.filter_filter, List.filter_filter]
    exact List.filter_congr (fun t _ => Bool.and_comm _ _)
  have hcov : ∀ t ∈ ts.filter (isKind k), key t ∈ bucketKeys key ts := by
    intro t ht
    exact mem_bucketKeys.mpr (List.mem_map.mpr ⟨t, List.mem_of_mem_filter ht, rfl⟩)
  calc ((bucketKeys key ts).map
          ((fun e => sumAmounts ((ts.filter (fun t => decide (key t = e.bucket))).filter
            (isKind k))) ∘ bucketEntry key ts)).sum
      = ((bucketKeys key ts).map
          (fun b => sumAmounts ((ts.filter (isKind k)).filter
            (fun t => decide (key t = b))))).sum := by
        apply congrArg List.sum
        apply List.map_congr_left
        intro b _
        simp only [Function.comp_apply, bucketEntry, hswap]
    _ = sumAmounts (ts.filter (isKind k)) :=
        sum_map_filter_eq key _ (bucketKeys_nodup key ts) _ hcov
    _ = kindTotal ts k := rfl

theorem breakdownBy_income_sum (key : Txn → ℤ) (ts : List Txn) :
    ((breakdownBy key ts).map (·.income)).sum = kindTotal ts .income := by
  have h := breakdownBy_kind_sum key ts .income
  rw [breakdownBy, List.map_map] at h ⊢
  rw [← h]
  apply congrArg List.sum
  apply List.map_congr_left
  intro b _
  rfl

theorem breakdownBy_expense_sum (key : Txn → ℤ) (ts : List Txn) :
    ((breakdownBy key ts).map (·.expense)).sum = kindTotal ts .expense := by
  have h := breakdownBy_kind_sum key ts .expense
  rw [breakdownBy, List.map_map] at h ⊢
  rw [← h]
  apply congrArg List.sum
  apply List.map_congr_left
  intro b _
  rfl

theorem round1_gt_ten {x : ℚ} (h : 10 < round1 x) : 10 < x := by
  unfold round1 at h
  have h1 : (100 : ℚ) < (⌊x * 10 + 1 / 2⌋ : ℚ) := by linarith
  have h2 : (101 : ℤ) ≤ ⌊x * 10 + 1 / 2⌋ := by exact_mod_cast h1
  have h3 : (101 : ℚ) ≤ x * 10 + 1 / 2 := by exact_mod_cast Int.le_floor.mp h2
  linarith

theorem round1_lt_neg_ten {x : ℚ} (h : round1 x < -10) : x < -10 := by
  unfold round1 at h
  have h1 : (⌊x * 10 + 1 / 2⌋ : ℚ) < -100 := by linarith
  have h2 : ⌊x * 10 + 1 / 2⌋ < (-100 : ℤ) := by exact_mod_cast h1
  have h3 : ⌊x * 10 + 1 / 2⌋ ≤ (-101 : ℤ) := by omega
  have h4 : x * 10 + 1 / 2 < (⌊x * 10 + 1 / 2⌋ : ℚ) + 1 := Int.lt_floor_add_one _
  have h5 : ((⌊x * 10 + 1 / 2⌋ : ℤ) : ℚ) ≤ (-101 : ℚ) := by exact_mod_cast h3
  linarith

theorem round1_lt_ten {x : ℚ} (h : round1 x < 10) : x < 10 := by
  unfold round1 at h
  have h1 : (⌊x * 10 + 1 / 2⌋ : ℚ) < 100 := by linarith
  have h2 : ⌊x * 10 + 1 / 2⌋ < (100 : ℤ) := by exact_mod_cast h1
  have h3 : x * 10 + 1 / 2 < (⌊x * 10 + 1 / 2⌋ : ℚ) + 1 := Int.lt_floor_add_one _
  have h4 : ((⌊x * 10 + 1 / 2⌋ : ℤ) : ℚ) ≤ (99 : ℚ) := by
    exact_mod_cast (by omega : ⌊x * 10 + 1 / 2⌋ ≤ (99 : ℤ))
  linarith

theorem round1_gt_thirty {x : ℚ} (h : 30 < round1 x) : 30 < x := by
  unfold round1 at h
  have h1 : (300 : ℚ) < (⌊x * 10 + 1 / 2⌋ : ℚ) := by linarith
  have h2 : (301 : ℤ) ≤ ⌊x * 10 + 1 / 2⌋ := by exact_mod_cast h1
  have h3 : (301 : ℚ) ≤ x * 10 + 1 / 2 := by exact_mod_cast Int.le_floor.mp h2
  linarith

theorem abs_round1_gt_ten {x : ℚ} (h : 10 < |round1 x|) : 10 < |x| := by
  rcases lt_abs.mp h with h' | h'
  · exact lt_abs.mpr (Or.inl (round1_gt_ten h'))
  · have : round1 x < -10 := by linarith
    exact lt_abs.mpr (Or.inr (by linarith [round1_lt_neg_ten this]))

theorem sumAmounts_nonneg {ts : List Txn} (h : ∀ t ∈ ts, 0 < t.amount) :
    0 ≤ sumAmounts ts := by
  induction ts with
  | nil => simp
  | cons t ts ih =>
    have ht := h t (List.mem_cons_self t ts)
    have := ih (fun u hu => h u (List.mem_cons_of_mem t hu))
    simp only [sumAmounts_cons]
    linarith

theorem sumAmounts_pos {ts : List Txn} (hne : ts ≠ [])
    (h : ∀ t ∈ ts, 0 < t.amount) : 0 < sumAmounts ts := by
  cases ts with
  | nil => exact absurd rfl hne
  | cons t ts =>
    have ht := h t (List.mem_cons_self t ts)
    have := sumAmounts_nonneg (fun u hu => h u (List.mem_cons_of_mem t hu))
    simp only [sumAmounts_cons]
    linarith

/-- Does an insight carry one of rule 2's titles? -/
def isRuleTwo (i : Insight) : Bool :=
  decide (i.title = "Spending Increased") || decide (i.title = "Spending Decreased")

/-- Does an insight carry one of rule 3's titles? -/
def isRuleThree (i : Insight) : Bool :=
  decide (i.title = "Spending Exceeds Income") || decide (i.title = "Low Savings Rate")
    || decide (i.title = "Excellent Savings Rate")

theorem ruleOne_titles {r : RData} {i : Insight} (h : i ∈ ruleOne r) :
    i.title = "Highest Spending Category" := by
  unfold ruleOne at h
  rcases hcats : r.expenseCategories with _ | ⟨top, rest⟩ <;> rw [hcats] at h
  · exact absurd h (List.not_mem_nil _)
  · rcases List.mem_singleton.mp h with rfl
    rfl

theorem ruleTwo_titles {t : Totals} {p : Option RData} {n : String} {i : Insight}
    (h : i ∈ ruleTwo t p n) :
    i.title = "Spending Increased" ∨ i.title = "Spending Decreased" := by
  unfold ruleTwo at h
  rcases p with _ | pd
  · exact absurd h (List.not_mem_nil _)
  · simp only at h
    split at h
    · split at h <;> split at h
      · rcases List.mem_singleton.mp h with rfl
        simp only
        split
        · left; rfl
        · right; rfl
      · exact absurd h (List.not_mem_nil _)
      · rcases List.mem_singleton.mp h with rfl
        simp only
        split
        · left; rfl
        · right; rfl
      · exact absurd h (List.not_mem_nil _)
    · exact absurd h (List.not_mem_nil _)

theorem ruleThree_titles {t : Totals} {i : Insight} (h : i ∈ ruleThree t) :
    i.title = "Spending Exceeds Income" ∨ i.title = "Low Savings Rate"
      ∨ i.title = "Excellent Savings Rate" := by
  unfold ruleThree at h
  simp only at h
  split at h
  · rcases List.mem_singleton.mp h with rfl; left; rfl
  · split at h
    · rcases List.mem_singleton.mp h with rfl; right; left; rfl
    · split at h
      · rcases List.mem_singleton.mp h with rfl; right; right; rfl
      · exact absurd h (List.not_mem_nil _)

theorem ruleOne_length (r : RData) : (ruleOne r).length ≤ 1 := by
  unfold ruleOne
  rcases r.expenseCategories with _ | ⟨top, rest⟩ <;> simp

theorem ruleTwo_length (t : Totals) (p : Option RData) (n : String) :
    (ruleTwo t p n).length ≤ 1 := by
  unfold ruleTwo
  rcases p with _ | pd
  · simp
  · simp only
    split
    · split <;> split <;> simp
    · simp

theorem ruleThree_length (t : Totals) : (ruleThree t).length ≤ 1 := by
  unfold ruleThree
  simp only
  split
  · simp
  · split
    · simp
    · split <;> simp

/-! ## Claim theorems -/

/-- C8: for every input date, `getMondayOfWeek` yields the Monday of that
date's calendar week (a day with ISO weekday Monday, at most 6 days before
the date, equal to `date - 6` when the date is a Sunday per the `-6` offset),
and the resolved week interval of `getWeeklyReports` ends exactly 6 days
after the start, so it spans exactly 7 days starting on a Monday. -/
theorem getMondayOfWeek_spec (n : ℤ) (ts : List Txn) :
    jsGetDay (getMondayOfWeek n) = 1 ∧
    getMondayOfWeek n ≤ n ∧ n ≤ getMondayOfWeek n + 6 ∧
    (jsGetDay n = 0 → getMondayOfWeek n = n - 6) ∧
    (getWeeklyReports ts (getMondayOfWeek n)).weekRange =
      (getMondayOfWeek n, getMondayOfWeek n + 6) ∧
    (getMondayOfWeek n + 6) - getMondayOfWeek n + 1 = 7 := by
  refine ⟨?_, ?_, ?_, ?_, ?_, ?_⟩
  · simp only [getMondayOfWeek, jsGetDay]
    split <;> omega
  · simp only [getMondayOfWeek, jsGetDay]
    split <;> omega
  · simp only [getMondayOfWeek, jsGetDay]
    split <;> omega
  · simp only [getMondayOfWeek, jsGetDay]
    split <;> omega
  · by_cases hf : ts.filter (inInterval (getMondayOfWeek n) (getMondayOfWeek n + 6)) = [] <;>
      simp [getWeeklyReports, hf]
  · omega

/-- Witness for C8 at a concrete Sunday (epoch day 3, 1970-01-04). -/
theorem getMondayOfWeek_spec_witness :
    jsGetDay 3 = 0 ∧ getMondayOfWeek 3 = 3 - 6 :=
  ⟨by decide, (getMondayOfWeek_spec 3 []).2.2.2.1 (by decide)⟩

/-- C3: aggregating an interval containing no transaction yields the
explicit non-error zero report (`hasTransactions = false`, zero totals,
empty breakdowns) in all three report variants, and `generateInsights`
derived from such a report is the empty list whatever the previous period
data is. -/
theorem emptyReports_spec (ts : List Txn) (weekStart lo hi : ℤ) (monthOf : ℤ → ℤ)
    (hweek : ts.filter (inInterval weekStart (weekStart + 6)) = [])
    (hmonth : ts.filter (inInterval lo hi) = []) :
    getWeeklyReports ts weekStart =
      ⟨(weekStart, weekStart + 6), ⟨0, 0⟩, [], [], false⟩ ∧
    getReports ts lo hi = ⟨⟨some 0, some 0⟩, [], ⟨0, 0⟩, false⟩ ∧
    getMonthlyReports monthOf ts lo hi = ⟨⟨0, 0⟩, [], [], false⟩ ∧
    (∀ p n, generateInsights (some (toRDataWeekly (getWeeklyReports ts weekStart))) p n = []) ∧
    (∀ p n, generateInsights (some (toRDataMonthly (getReports ts lo hi))) p n = []) ∧
    (∀ p n, generateInsights (some (toRDataYearly (getMonthlyReports monthOf ts lo hi))) p n = []) := by
  refine ⟨?_, ?_, ?_, ?_, ?_, ?_⟩
  · simp [getWeeklyReports, hweek]
  · simp [getReports, hmonth]
  · simp [getMonthlyReports, hmonth]
  · intro p n; simp [generateInsights, toRDataWeekly, getWeeklyReports, hweek]
  · intro p n; simp [generateInsights, toRDataMonthly, getReports, hmonth]
  · intro p n; simp [generateInsights, toRDataYearly, getMonthlyReports, hmonth]

/-- Witness for C3: a transaction outside the interval, year-style and
week-style, gives `hasTransactions = false` and no insights. -/
theorem emptyReports_spec_witness :
    generateInsights
      (some (toRDataWeekly (getWeeklyReports [⟨.expense, "Food", 5, 100⟩] 0))) none "week" = [] :=
  (emptyReports_spec [⟨.expense, "Food", 5, 100⟩] 0 0 6 (fun d => d)
    (by simp [inInterval]) (by simp [inInterval])).2.2.2.1 none "week"

/-- C4 counterexample: a month containing only an income transaction.  The
MySQL monthly `getReports` builds `totals` from `{}`, so the report's
`totals` object has no `expense` field at all (modelled as `none`), rather
than an expense total of 0. -/
theorem totals_missing_kind_counterexample :
    (getReports [⟨.income, "Salary", 5, 3⟩] 0 30).totals.expense = none ∧
    (none : Option ℚ) ≠ some 0 := by
  constructor
  · simp [getReports, inInterval, formatTotalsOpt, isKind]
  · simp

/-- C4 (amended): the weekly and yearly variants' totals, and the monthly
variant's `monthlyData`, always carry both an `income` and an `expense`
field equal to the kind's sum over the interval (0 when the kind has no
transactions); but the monthly variant's `totals` object carries a field
for a kind only when the interval has a transaction of that kind (and the
explicit zero object when it has none at all), so a kind without
transactions is absent there, not 0. -/
theorem totals_fields_spec (ts : List Txn) (weekStart lo hi : ℤ) (monthOf : ℤ → ℤ) :
    (getWeeklyReports ts weekStart).totals =
      ⟨kindTotal (ts.filter (inInterval weekStart (weekStart + 6))) .income,
       kindTotal (ts.filter (inInterval weekStart (weekStart + 6))) .expense⟩ ∧
    (getMonthlyReports monthOf ts lo hi).yearlyTotals =
      ⟨kindTotal (ts.filter (inInterval lo hi)) .income,
       kindTotal (ts.filter (inInterval lo hi)) .expense⟩ ∧
    (getReports ts lo hi).monthlyData =
      ⟨kindTotal (ts.filter (inInterval lo hi)) .income,
       kindTotal (ts.filter (inInterval lo hi)) .expense⟩ ∧
    (getReports ts lo hi).totals.income =
      (if ts.filter (inInterval lo hi) = [] then some 0
       else if (ts.filter (inInterval lo hi)).any (isKind .income) then
         some (kindTotal (ts.filter (inInterval lo hi)) .income)
       else none) ∧
    (getReports ts lo hi).totals.expense =
      (if ts.filter (inInterval lo hi) = [] then some 0
       else if (ts.filter (inInterval lo hi)).any (isKind .expense) then
         some (kindTotal (ts.filter (inInterval lo hi)) .expense)
       else none) := by
  refine ⟨?_, ?_, ?_, ?_, ?_⟩
  · by_cases hf : ts.filter (inInterval weekStart (weekStart + 6)) = [] <;>
      simp [getWeeklyReports, hf, formatTotals, kindTotal]
  · by_cases hf : ts.filter (inInterval lo hi) = [] <;>
      simp [getMonthlyReports, hf, formatTotals, kindTotal]
  · by_cases hf : ts.filter (inInterval lo hi) = [] <;>
      simp [getReports, hf, formatTotals, kindTotal]
  · by_cases hf : ts.filter (inInterval lo hi) = [] <;>
      simp [getReports, hf, formatTotalsOpt]
  · by_cases hf : ts.filter (inInterval lo hi) = [] <;>
      simp [getReports, hf, formatTotalsOpt]

/-- C1 counterexample: a week whose only transaction falls on its first day.
The aggregator's `dailyBreakdown` has a single entry, not 7, because only
bucket keys present in the grouped rows produce entries — empty days are not
zero-filled (the frontend zero-fills only when preparing chart data). -/
theorem dailyBreakdown_length_counterexample :
    (getWeeklyReports [⟨.expense, "Food", 5, 0⟩] 0).dailyBreakdown.length = 1 ∧
      (1 : ℕ) ≠ 7 := by
  constructor
  · simp [getWeeklyReports, inInterval, breakdownBy, bucketKeys, List.dedup]
  · decide

theorem breakdownBy_buckets (key : Txn → ℤ) (ts : List Txn) :
    (breakdownBy key ts).map (·.bucket) = bucketKeys key ts := by
  rw [breakdownBy, List.map_map]
  exact List.map_id'' (fun b => rfl) _

/-- C1 (amended): the sub-period breakdown returned by the aggregator
(`dailyBreakdown` for a week, `monthlyBreakdown` for a year) contains
exactly one entry per calendar bucket that has at least one transaction —
not one per bucket of the interval — in strictly increasing chronological
order, with both kinds' sums per entry (0 for a kind absent from a bucket);
its length is the number of distinct buckets with data, and summing the
income fields of all entries equals `totals.income` while summing the
expense fields equals `totals.expense`. -/
theorem subPeriodBreakdown_spec (key : Txn → ℤ) (ts us : List Txn)
    (weekStart lo hi : ℤ) (monthOf : ℤ → ℤ) :
    ((breakdownBy key ts).map (·.bucket)).Sorted (· < ·) ∧
    (∀ b, b ∈ (breakdownBy key ts).map (·.bucket) ↔ b ∈ ts.map key) ∧
    (breakdownBy key ts).length = ((ts.map key).dedup).length ∧
    (∀ e ∈ breakdownBy key ts,
      e.income = sumAmounts ((ts.filter (fun t => decide (key t = e.bucket))).filter
        (isKind .income)) ∧
      e.expense = sumAmounts ((ts.filter (fun t => decide (key t = e.bucket))).filter
        (isKind .expense))) ∧
    ((breakdownBy key ts).map (·.income)).sum = kindTotal ts .income ∧
    ((breakdownBy key ts).map (·.expense)).sum = kindTotal ts .expense ∧
    (getWeeklyReports us weekStart).dailyBreakdown =
      breakdownBy (·.occurredOn) (us.filter (inInterval weekStart (weekStart + 6))) ∧
    (getMonthlyReports monthOf us lo hi).monthlyBreakdown =
      breakdownBy (fun t => monthOf t.occurredOn) (us.filter (inInterval lo hi)) ∧
    ((getWeeklyReports us weekStart).dailyBreakdown.map (·.income)).sum =
      (getWeeklyReports us weekStart).totals.income ∧
    ((getWeeklyReports us weekStart).dailyBreakdown.map (·.expense)).sum =
      (getWeeklyReports us weekStart).totals.expense ∧
    ((getMonthlyReports monthOf us lo hi).monthlyBreakdown.map (·.income)).sum =
      (getMonthlyReports monthOf us lo hi).yearlyTotals.income ∧
    ((getMonthlyReports monthOf us lo hi).monthlyBreakdown.map (·.expense)).sum =
      (getMonthlyReports monthOf us lo hi).yearlyTotals.expense := by
  refine ⟨?_, ?_, ?_, ?_, ?_, ?_, ?_, ?_, ?_, ?_, ?_, ?_⟩
  · rw [breakdownBy_buckets]
    exact bucketKeys_sorted key ts
  · intro b
    rw [breakdownBy_buckets]
    exact mem_bucketKeys
  · rw [breakdownBy, List.length_map, bucketKeys,
      (List.perm_insertionSort _ _).length_eq]
  · intro e he
    rcases List.mem_map.mp he with ⟨b, _, rfl⟩
    exact ⟨rfl, rfl⟩
  · exact breakdownBy_income_sum key ts
  · exact breakdownBy_expense_sum key ts
  · by_cases hf : us.filter (inInterval weekStart (weekStart + 6)) = [] <;>
      simp [getWeeklyReports, hf, breakdownBy, bucketKeys, List.dedup]
  · by_cases hf : us.filter (inInterval lo hi) = [] <;>
      simp [getMonthlyReports, hf, breakdownBy, bucketKeys, List.dedup]
  · by_cases hf : us.filter (inInterval weekStart (weekStart + 6)) = [] <;>
      simp [getWeeklyReports, hf, breakdownBy_income_sum, formatTotals]
  · by_cases hf : us.filter (inInterval weekStart (weekStart + 6)) = [] <;>
      simp [getWeeklyReports, hf, breakdownBy_expense_sum, formatTotals]
  · by_cases hf : us.filter (inInterval lo hi) = [] <;>
      simp [getMonthlyReports, hf, breakdownBy_income_sum, formatTotals]
  · by_cases hf : us.filter (inInterval lo hi) = [] <;>
      simp [getMonthlyReports, hf, breakdownBy_expense_sum, formatTotals]

/-- Witness for C1: the single bucket entry of a one-transaction week has
the per-bucket income sum. -/
theorem subPeriodBreakdown_spec_witness :
    (bucketEntry (fun t => t.occurredOn) [⟨Kind.expense, "Food", 5, 0⟩] 0).income =
      sumAmounts (([(⟨Kind.expense, "Food", 5, 0⟩ : Txn)].filter (fun t =>
        decide ((fun t : Txn => t.occurredOn) t =
          (bucketEntry (fun t => t.occurredOn)
            [⟨Kind.expense, "Food", 5, 0⟩] 0).bucket))).filter (isKind .income)) :=
  ((subPeriodBreakdown_spec (fun t => t.occurredOn) [⟨Kind.expense, "Food", 5, 0⟩]
      [] 0 0 0 (fun d => d)).2.2.2.1
    (bucketEntry (fun t => t.occurredOn) [⟨Kind.expense, "Food", 5, 0⟩] 0)
    (by simp [breakdownBy, bucketKeys, List.dedup])).1

/-- C2 counterexample: two expense categories, A seen first, with equal
summed amounts.  The database promises only a non-increasing order by
summed amount, and the list with B before A satisfies that contract while
differing from the first-seen order [A, B] — so the program does not break
ties by first-encountered category; that order is one admissible outcome,
not a guarantee. -/
theorem categoryBreakdown_tie_counterexample :
    isValidCategoryBreakdown
      [⟨Kind.expense, "A", 5, 0⟩, ⟨Kind.expense, "B", 5, 1⟩] [("B", 5), ("A", 5)] ∧
    groupByCat (([⟨Kind.expense, "A", 5, 0⟩, ⟨Kind.expense, "B", 5, 1⟩] : List Txn).filter
      (isKind .expense)) = [("A", 5), ("B", 5)] ∧
    ([("B", 5), ("A", 5)] : List (String × ℚ)) ≠ [("A", 5), ("B", 5)] := by
  have hg : groupByCat (([⟨Kind.expense, "A", 5, 0⟩, ⟨Kind.expense, "B", 5, 1⟩] :
      List Txn).filter (isKind .expense)) = [("A", 5), ("B", 5)] := by
    simp [groupByCat, dedupFirst, isKind, sumAmounts]
  refine ⟨⟨?_, ?_⟩, hg, ?_⟩
  · rw [hg]
    exact List.Perm.swap _ _ _
  · rw [List.sorted_cons]
    refine ⟨?_, List.sorted_singleton _⟩
    intro b hb
    rcases List.mem_singleton.mp hb with rfl
    show (5 : ℚ) ≤ 5
    norm_num
  · simp

/-- C2 (amended): every result the category query may return — any
non-increasingly sorted arrangement of the expense-by-category groups —
contains only expense transactions grouped by category with summed amounts
(keys duplicate-free, each entry's amount the summed expense amount of its
category), and the sum of its amounts equals the expense total (at the
report level, `totals.expense`); the relative order of equal sums is not
determined by the program, first-seen being merely one admissible outcome
(realised by the pipeline's `categoryBreakdown`). -/
theorem categoryBreakdown_relational_spec (ts : List Txn) (l : List (String × ℚ))
    (weekStart : ℤ) (hl : isValidCategoryBreakdown ts l) :
    l.Sorted catGe ∧
    (∀ e ∈ l, e.1 ∈ (ts.filter (isKind .expense)).map (·.category) ∧
      e.2 = sumAmounts ((ts.filter (isKind .expense)).filter
        (fun t => decide (t.category = e.1)))) ∧
    (l.map (·.1)).Nodup ∧
    (l.map (·.2)).sum = kindTotal ts .expense ∧
    isValidCategoryBreakdown ts (categoryBreakdown ts) ∧
    ((getWeeklyReports ts weekStart).expensesByCategory.map (·.2)).sum =
      (getWeeklyReports ts weekStart).totals.expense := by
  obtain ⟨hperm, hsort⟩ := hl
  refine ⟨hsort, ?_, ?_, ?_,
    ⟨categoryBreakdown_perm ts, categoryBreakdown_sorted ts⟩, ?_⟩
  · intro e he
    have hg := hperm.mem_iff.mp he
    exact ⟨groupByCat_fst _ hg, groupByCat_snd _ hg⟩
  · exact (hperm.map (·.1)).nodup_iff.mpr (groupByCat_keys_nodup _)
  · rw [(hperm.map (·.2)).sum_eq, groupByCat_snd_sum]
    rfl
  · by_cases hf : ts.filter (inInterval weekStart (weekStart + 6)) = [] <;>
      simp [getWeeklyReports, hf, categoryBreakdown_snd_sum, formatTotals]

/-- Witness for C2: the singleton result of a single expense satisfies the
database contract, and the theorem yields its amount sum. -/
theorem categoryBreakdown_relational_spec_witness :
    (([("Food", (5 : ℚ))] : List (String × ℚ)).map (·.2)).sum =
      kindTotal [⟨Kind.expense, "Food", 5, 0⟩] .expense :=
  (categoryBreakdown_relational_spec [⟨Kind.expense, "Food", 5, 0⟩] [("Food", 5)] 0
    (by
      have hg : groupByCat (([⟨Kind.expense, "Food", 5, 0⟩] : List Txn).filter
          (isKind .expense)) = [("Food", (5 : ℚ))] := by
        norm_num [groupByCat, dedupFirst, isKind, sumAmounts]
      refine ⟨?_, List.sorted_singleton _⟩
      rw [hg])).2.2.2.1

theorem filter_ruleTwo_ruleOne (r : RData) : (ruleOne r).filter isRuleTwo = [] := by
  rw [List.filter_eq_nil_iff]
  intro i hi
  simp [isRuleTwo, ruleOne_titles hi]

theorem filter_ruleTwo_ruleThree (t : Totals) : (ruleThree t).filter isRuleTwo = [] := by
  rw [List.filter_eq_nil_iff]
  intro i hi
  rcases ruleThree_titles hi with h | h | h <;> simp [isRuleTwo, h]

theorem filter_ruleTwo_self (t : Totals) (p : Option RData) (n : String) :
    (ruleTwo t p n).filter isRuleTwo = ruleTwo t p n := by
  rw [List.filter_eq_self]
  intro i hi
  rcases ruleTwo_titles hi with h | h <;> simp [isRuleTwo, h]

theorem filter_ruleThree_ruleOne (r : RData) : (ruleOne r).filter isRuleThree = [] := by
  rw [List.filter_eq_nil_iff]
  intro i hi
  simp [isRuleThree, ruleOne_titles hi]

theorem filter_ruleThree_ruleTwo (t : Totals) (p : Option RData) (n : String) :
    (ruleTwo t p n).filter isRuleThree = [] := by
  rw [List.filter_eq_nil_iff]
  intro i hi
  rcases ruleTwo_titles hi with h | h <;> simp [isRuleThree, h]

theorem filter_ruleThree_self (t : Totals) :
    (ruleThree t).filter isRuleThree = ruleThree t := by
  rw [List.filter_eq_self]
  intro i hi
  rcases ruleThree_titles hi with h | h | h <;> simp [isRuleThree, h]

theorem generateInsights_filter_ruleTwo (r : RData) (p : Option RData) (n : String) :
    (generateInsights (some r) p n).filter isRuleTwo =
      if r.hasTransactions then ruleTwo r.totals p n else [] := by
  by_cases hr : r.hasTransactions <;>
    simp [generateInsights, hr, List.filter_append, filter_ruleTwo_ruleOne,
      filter_ruleTwo_ruleThree, filter_ruleTwo_self]

theorem generateInsights_filter_ruleThree (r : RData) (p : Option RData) (n : String) :
    (generateInsights (some r) p n).filter isRuleThree =
      if r.hasTransactions then ruleThree r.totals else [] := by
  by_cases hr : r.hasTransactions <;>
    simp [generateInsights, hr, List.filter_append, filter_ruleThree_ruleOne,
      filter_ruleThree_ruleTwo, filter_ruleThree_self]

/-- C5 counterexample: previous expenses 2500, current expenses 2751, so the
exact period-over-period delta is 10.04% — greater than 10 — yet rule 2
emits nothing, because the code compares the `toFixed(1)`-rounded
percentage (10.0) with 10.  The claim's "emitted exactly when
`|deltaPct| > 10`" therefore fails at the rounding boundary. -/
theorem ruleTwo_boundary_counterexample :
    (10 : ℚ) < |100 * ((2751 : ℚ) - 2500) / 2500| ∧
    (generateInsights (some ⟨true, ⟨0, 2751⟩, []⟩)
      (some ⟨true, ⟨0, 2500⟩, []⟩) "month").filter isRuleTwo = [] := by
  constructor
  · rw [abs_of_pos (by norm_num)]
    norm_num
  · rw [generateInsights_filter_ruleTwo]
    norm_num [ruleTwo, jdiv, jmul100, jsToFixed1, jsAbs, jsGt, round1]

/-- C5 (amended): rule 2 is never emitted when the previous report is
absent, when `previous.hasTransactions` is false, or when
`previous.totals.expense` is not positive (in particular 0 — in that case
the percentage is the literal 0, so no division happens); when it applies,
it is emitted exactly when the `toFixed(1)`-rounded percentage exceeds 10
in absolute value — which implies, but is not implied by,
`|deltaPct| > 10` — with type `warning` (caution) if the expense delta is
positive and `success` (informational) otherwise. -/
theorem ruleTwo_spec (r : RData) (p : Option RData) (n : String) :
    ((generateInsights (some r) p n).filter isRuleTwo).map (·.type) =
      (match p with
       | none => []
       | some pd =>
         if ¬ r.hasTransactions then []
         else if ¬ pd.hasTransactions then []
         else if ¬ (0 < pd.totals.expense) then []
         else if jsGt (jsAbs (jsToFixed1 (jmul100
             (jdiv (r.totals.expense - pd.totals.expense) pd.totals.expense)))) 10 then
           [if 0 < r.totals.expense - pd.totals.expense then "warning" else "success"]
         else []) ∧
    ((generateInsights (some r) p n).filter isRuleTwo ≠ [] →
      ∃ pd, p = some pd ∧ pd.hasTransactions = true ∧ 0 < pd.totals.expense ∧
        10 < |100 * (r.totals.expense - pd.totals.expense) / pd.totals.expense|) := by
  have hchar : ((generateInsights (some r) p n).filter isRuleTwo).map (·.type) =
      (match p with
       | none => []
       | some pd =>
         if ¬ r.hasTransactions then []
         else if ¬ pd.hasTransactions then []
         else if ¬ (0 < pd.totals.expense) then []
         else if jsGt (jsAbs (jsToFixed1 (jmul100
             (jdiv (r.totals.expense - pd.totals.expense) pd.totals.expense)))) 10 then
           [if 0 < r.totals.expense - pd.totals.expense then "warning" else "success"]
         else []) := by
    rw [generateInsights_filter_ruleTwo]
    rcases p with _ | pd
    · by_cases hr : r.hasTransactions <;> simp [ruleTwo, hr]
    · by_cases hr : r.hasTransactions
      · by_cases hp : pd.hasTransactions
        · by_cases hq : 0 < pd.totals.expense
          · by_cases hj : jsGt (jsAbs (jsToFixed1 (jmul100
                (jdiv (r.totals.expense - pd.totals.expense) pd.totals.expense)))) 10 <;>
              simp [ruleTwo, hr, hp, hq, hj]
          · simp [ruleTwo, hr, hp, hq, jsAbs, jsGt]
        · simp [ruleTwo, hr, hp]
      · simp [ruleTwo, hr]
  refine ⟨hchar, ?_⟩
  intro hne
  have hmapne : ((generateInsights (some r) p n).filter isRuleTwo).map (·.type) ≠ [] := by
    intro h
    exact hne (List.map_eq_nil_iff.mp h)
  rw [hchar] at hmapne
  rcases p with _ | pd
  · exact absurd rfl hmapne
  · have hr : r.hasTransactions = true := by
      by_contra hr
      simp [hr] at hmapne
    have hp : pd.hasTransactions = true := by
      by_contra hp
      simp [hr, hp] at hmapne
    have hq : 0 < pd.totals.expense := by
      by_contra hq
      simp [hr, hp, hq] at hmapne
    have hj : jsGt (jsAbs (jsToFixed1 (jmul100
        (jdiv (r.totals.expense - pd.totals.expense) pd.totals.expense)))) 10 = true := by
      by_contra hj
      simp [hr, hp, hq, hj] at hmapne
    refine ⟨pd, rfl, hp, hq, ?_⟩
    have hne0 : pd.totals.expense ≠ 0 := ne_of_gt hq
    rw [jdiv, if_pos hne0] at hj
    simp only [jmul100, jsToFixed1, jsAbs, jsGt, decide_eq_true_eq] at hj
    have habs := abs_round1_gt_ten hj
    have hrw : (r.totals.expense - pd.totals.expense) / pd.totals.expense * 100 =
        100 * (r.totals.expense - pd.totals.expense) / pd.totals.expense := by
      ring
    rwa [hrw] at habs

/-- Witness for C5: with previous expenses 2500 and current 5000 rule 2
fires, and the theorem yields the exact delta bound. -/
theorem ruleTwo_spec_witness :
    ∃ pd, (some (⟨true, ⟨0, 2500⟩, []⟩ : RData) : Option RData) = some pd ∧
      pd.hasTransactions = true ∧ 0 < pd.totals.expense ∧
      10 < |100 * ((⟨true, ⟨0, 5000⟩, []⟩ : RData).totals.expense -
        pd.totals.expense) / pd.totals.expense| :=
  (ruleTwo_spec ⟨true, ⟨0, 5000⟩, []⟩ (some ⟨true, ⟨0, 2500⟩, []⟩) "month").2
    (by
      rw [generateInsights_filter_ruleTwo]
      norm_num [ruleTwo, jdiv, jmul100, jsToFixed1, jsAbs, jsGt, round1])

/-- C6 counterexample: income 10000, expense 9004.  Savings (996) are
non-negative and the exact savings rate is 9.96% — below 10 — so the
claim's chain requires a caution insight; but the code compares the
`toFixed(1)`-rounded rate (10.0) with 10 and with 30, both fail, and no
rule-3 insight is emitted at all. -/
theorem ruleThree_boundary_counterexample :
    (0 : ℚ) ≤ (10000 : ℚ) - 9004 ∧
    100 * ((10000 : ℚ) - 9004) / 10000 < 10 ∧
    (generateInsights (some ⟨true, ⟨10000, 9004⟩, []⟩) none "month").filter
      isRuleThree = [] := by
  refine ⟨by norm_num, by norm_num, ?_⟩
  rw [generateInsights_filter_ruleThree]
  norm_num [ruleThree, savingsRateJs, jdiv, jmul100, jsToFixed1, jsLt, jsGt, round1]

/-- C6 (amended): rule 3 (savings-rate health) contributes at most one
insight per call of the insight engine, and exactly the variant the chain
selects: `danger` (critical) when savings are negative, else `warning`
(caution) when the `toFixed(1)`-rounded savings rate — taken as the number
0 when income is not positive — is below 10, else `success` (informational)
when the rounded rate exceeds 30, else nothing; two variants never appear
together.  The rounded thresholds imply the exact-rate bounds (caution
entails an exact rate below 10, informational an exact rate above 30) but
not conversely. -/
theorem ruleThree_spec (r : RData) (p : Option RData) (n : String) :
    ((generateInsights (some r) p n).filter isRuleThree).length ≤ 1 ∧
    ((generateInsights (some r) p n).filter isRuleThree).map (·.type) =
      (if ¬ r.hasTransactions then []
       else if r.totals.income - r.totals.expense < 0 then ["danger"]
       else if jsLt (savingsRateJs r.totals) 10 then ["warning"]
       else if jsGt (savingsRateJs r.totals) 30 then ["success"]
       else []) ∧
    (0 < r.totals.income →
      ((generateInsights (some r) p n).filter isRuleThree).map (·.type) = ["warning"] →
      100 * (r.totals.income - r.totals.expense) / r.totals.income < 10) ∧
    (0 < r.totals.income →
      ((generateInsights (some r) p n).filter isRuleThree).map (·.type) = ["success"] →
      30 < 100 * (r.totals.income - r.totals.expense) / r.totals.income) := by
  have hchar : ((generateInsights (some r) p n).filter isRuleThree).map (·.type) =
      (if ¬ r.hasTransactions then []
       else if r.totals.income - r.totals.expense < 0 then ["danger"]
       else if jsLt (savingsRateJs r.totals) 10 then ["warning"]
       else if jsGt (savingsRateJs r.totals) 30 then ["success"]
       else []) := by
    rw [generateInsights_filter_ruleThree]
    by_cases hr : r.hasTransactions
    · by_cases h1 : r.totals.income - r.totals.expense < 0
      · simp [ruleThree, hr, h1]
      · by_cases h2 : jsLt (savingsRateJs r.totals) 10
        · simp [ruleThree, hr, h1, h2]
        · by_cases h3 : jsGt (savingsRateJs r.totals) 30 <;>
            simp [ruleThree, hr, h1, h2, h3]
    · simp [hr]
  have hrate : ∀ hinc : 0 < r.totals.income, savingsRateJs r.totals =
      JsNum.num (round1 ((r.totals.income - r.totals.expense) /
        r.totals.income * 100)) := by
    intro hinc
    have hne : r.totals.income ≠ 0 := ne_of_gt hinc
    simp [savingsRateJs, hinc, jdiv, hne, jmul100, jsToFixed1]
  have hrw : (r.totals.income - r.totals.expense) / r.totals.income * 100 =
      100 * (r.totals.income - r.totals.expense) / r.totals.income := by
    ring
  refine ⟨?_, hchar, ?_, ?_⟩
  · rw [generateInsights_filter_ruleThree]
    by_cases hr : r.hasTransactions
    · simpa [hr] using ruleThree_length r.totals
    · simp [hr]
  · intro hinc hmap
    rw [hchar] at hmap
    by_cases hr : r.hasTransactions
    · by_cases h1 : r.totals.income - r.totals.expense < 0
      · simp [hr, h1] at hmap
      · by_cases h2 : jsLt (savingsRateJs r.totals) 10
        · rw [hrate hinc] at h2
          simp only [jsLt, decide_eq_true_eq] at h2
          have := round1_lt_ten h2
          rwa [hrw] at this
        · by_cases h3 : jsGt (savingsRateJs r.totals) 30 <;>
            simp [hr, h1, h2, h3] at hmap
    · simp [hr] at hmap
  · intro hinc hmap
    rw [hchar] at hmap
    by_cases hr : r.hasTransactions
    · by_cases h1 : r.totals.income - r.totals.expense < 0
      · simp [hr, h1] at hmap
      · by_cases h2 : jsLt (savingsRateJs r.totals) 10
        · simp [hr, h1, h2] at hmap
        · by_cases h3 : jsGt (savingsRateJs r.totals) 30
          · rw [hrate hinc] at h3
            simp only [jsGt, decide_eq_true_eq] at h3
            have := round1_gt_thirty h3
            rwa [hrw] at this
          · simp [hr, h1, h2, h3] at hmap
    · simp [hr] at hmap

/-- Witness for C6: income 100, expense 95 — the rounded rate 5.0 selects
the caution variant, and the theorem yields the exact-rate bound. -/
theorem ruleThree_spec_witness :
    100 * ((100 : ℚ) - 95) / 100 < 10 :=
  (ruleThree_spec ⟨true, ⟨100, 95⟩, []⟩ none "month").2.2.1 (by norm_num)
    (by
      rw [generateInsights_filter_ruleThree]
      norm_num [ruleThree, savingsRateJs, jdiv, jmul100, jsToFixed1, jsLt, jsGt,
        round1])

theorem append_length_pos_right (a : String) {b : String} (h : 0 < b.length) :
    0 < (a ++ b).length := by
  simp only [String.length_append]
  omega

theorem append_length_pos_left {a : String} (b : String) (h : 0 < a.length) :
    0 < (a ++ b).length := by
  simp only [String.length_append]
  omega

theorem ruleOne_fields {r : RData} {i : Insight} (h : i ∈ ruleOne r) :
    i.type = "warning" ∧ 0 < i.title.length ∧ 0 < i.message.length ∧
      0 < i.suggestion.length := by
  unfold ruleOne at h
  rcases hcats : r.expenseCategories with _ | ⟨top, rest⟩ <;> rw [hcats] at h
  · exact absurd h (List.not_mem_nil _)
  · rcases List.mem_singleton.mp h with rfl
    refine ⟨rfl, by dsimp only; decide, ?_, ?_⟩
    · dsimp only
      exact append_length_pos_right _ (by decide)
    · dsimp only
      split <;> decide

theorem ruleTwo_fields {t : Totals} {p : Option RData} {n : String} {i : Insight}
    (h : i ∈ ruleTwo t p n) :
    (i.type = "warning" ∨ i.type = "success") ∧ 0 < i.title.length ∧
      0 < i.message.length ∧ 0 < i.suggestion.length := by
  unfold ruleTwo at h
  rcases p with _ | pd
  · exact absurd h (List.not_mem_nil _)
  · simp only at h
    split at h
    · split at h <;> split at h
      · rcases List.mem_singleton.mp h with rfl
        refine ⟨?_, ?_, ?_, ?_⟩
        · simp only
          split
          · left; rfl
          · right; rfl
        · dsimp only
          exact append_length_pos_left _ (by decide)
        · dsimp only
          exact append_length_pos_right _ (by decide)
        · dsimp only
          split <;> decide
      · exact absurd h (List.not_mem_nil _)
      · rcases List.mem_singleton.mp h with rfl
        refine ⟨?_, ?_, ?_, ?_⟩
        · simp only
          split
          · left; rfl
          · right; rfl
        · dsimp only
          exact append_length_pos_left _ (by decide)
        · dsimp only
          exact append_length_pos_right _ (by decide)
        · dsimp only
          split <;> decide
      · exact absurd h (List.not_mem_nil _)
    · exact absurd h (List.not_mem_nil _)

theorem ruleThree_fields {t : Totals} {i : Insight} (h : i ∈ ruleThree t) :
    (i.type = "warning" ∨ i.type = "success" ∨ i.type = "danger") ∧
      0 < i.title.length ∧ 0 < i.message.length ∧ 0 < i.suggestion.length := by
  unfold ruleThree at h
  simp only at h
  split at h
  · rcases List.mem_singleton.mp h with rfl
    exact ⟨Or.inr (Or.inr rfl), by dsimp only; decide,
      by dsimp only; exact append_length_pos_right _ (by decide),
      by dsimp only; decide⟩
  · split at h
    · rcases List.mem_singleton.mp h with rfl
      exact ⟨Or.inl rfl, by dsimp only; decide,
        by dsimp only; exact append_length_pos_right _ (by decide),
        by dsimp only; decide⟩
    · split at h
      · rcases List.mem_singleton.mp h with rfl
        exact ⟨Or.inr (Or.inl rfl), by dsimp only; decide,
          by dsimp only; exact append_length_pos_right _ (by decide),
          by dsimp only; decide⟩
      · exact absurd h (List.not_mem_nil _)

/-- C10 (implicit): for every pair of current and previous report data, the
insight engine returns at most three insights, the list being exactly the
concatenation of the three rules' outputs in the fixed order top-category,
period-over-period, savings-rate, each contributing at most one; and every
emitted insight has a type among `warning`/`success`/`danger` and non-empty
title, message and suggestion strings. -/
theorem generateInsights_shape_spec (rd p : Option RData) (n : String) :
    (generateInsights rd p n).length ≤ 3 ∧
    (∀ r, rd = some r → r.hasTransactions = true →
      generateInsights rd p n = ruleOne r ++ ruleTwo r.totals p n ++ ruleThree r.totals) ∧
    (∀ r, (ruleOne r).length ≤ 1) ∧
    (∀ t q m, (ruleTwo t q m).length ≤ 1) ∧
    (∀ t, (ruleThree t).length ≤ 1) ∧
    (∀ i ∈ generateInsights rd p n,
      (i.type = "warning" ∨ i.type = "success" ∨ i.type = "danger") ∧
      0 < i.title.length ∧ 0 < i.message.length ∧ 0 < i.suggestion.length) := by
  refine ⟨?_, ?_, ruleOne_length, ruleTwo_length, ruleThree_length, ?_⟩
  · rcases rd with _ | r
    · simp [generateInsights]
    · by_cases hr : r.hasTransactions
      · have h1 := ruleOne_length r
        have h2 := ruleTwo_length r.totals p n
        have h3 := ruleThree_length r.totals
        simp only [generateInsights, hr, if_true, List.length_append]
        omega
      · simp [generateInsights, hr]
  · rintro r rfl hr
    simp [generateInsights, hr]
  · intro i hi
    rcases rd with _ | r
    · exact absurd hi (List.not_mem_nil _)
    · by_cases hr : r.hasTransactions
      · simp only [generateInsights, hr, if_true, List.mem_append] at hi
        rcases hi with (h1 | h2) | h3
        · obtain ⟨ht, h⟩ := ruleOne_fields h1
          exact ⟨Or.inl ht, h⟩
        · obtain ⟨ht, h⟩ := ruleTwo_fields h2
          rcases ht with ht | ht
          · exact ⟨Or.inl ht, h⟩
          · exact ⟨Or.inr (Or.inl ht), h⟩
        · exact ruleThree_fields h3
      · simp [generateInsights, hr] at hi

/-- Witness for C10: a concrete report decomposes into the three rule
outputs in order. -/
theorem generateInsights_shape_spec_witness :
    generateInsights (some ⟨true, ⟨100, 30⟩, [("Food", 30)]⟩) none "month" =
      ruleOne ⟨true, ⟨100, 30⟩, [("Food", 30)]⟩ ++
        ruleTwo ⟨100, 30⟩ none "month" ++ ruleThree ⟨100, 30⟩ :=
  (generateInsights_shape_spec (some ⟨true, ⟨100, 30⟩, [("Food", 30)]⟩) none "month").2.1
    ⟨true, ⟨100, 30⟩, [("Food", 30)]⟩ rfl rfl

/-- C7 counterexample: the insight engine's top-category share (the cited
revision) has no zero guard — on report data with a non-empty category list
and zero expense total the computed percentage is `NaN` (or `Infinity` when
the top amount is positive), not 0%, and the rule still emits an insight. -/
theorem rule1Pct_zero_counterexample :
    rule1Pct 0 0 = JsNum.nan ∧ rule1Pct 0 5 = JsNum.posInf ∧
    JsNum.nan ≠ JsNum.num 0 ∧ JsNum.posInf ≠ JsNum.num 0 ∧
    (ruleOne ⟨true, ⟨0, 0⟩, [("Food", 0)]⟩).length = 1 := by
  refine ⟨?_, ?_, by decide, by decide, ?_⟩
  · norm_num [rule1Pct, jdiv, jmul100, jsToFixed1]
  · norm_num [rule1Pct, jdiv, jmul100, jsToFixed1]
  · simp [ruleOne]

/-- C7 (amended): the per-category percentage display is guarded and yields
0% when the expense total is not positive; the insight engine's top-category
share is not guarded, but it is finite for every aggregator-produced report
over positive-amount transactions, because a non-empty category breakdown
forces a positive expense total, and the share at a positive total is the
ordinary rounded percentage. -/
theorem percentage_guard_spec (amount : ℚ) (ts : List Txn) (weekStart : ℤ)
    (hpos : ∀ t ∈ ts, 0 < t.amount) :
    tablePercentage 0 amount = JsNum.num 0 ∧
    (∀ total : ℚ, 0 < total →
      tablePercentage total amount = JsNum.num (round1 (amount / total * 100))) ∧
    ((getWeeklyReports ts weekStart).expensesByCategory ≠ [] →
      0 < (getWeeklyReports ts weekStart).totals.expense) ∧
    (∀ a total : ℚ, 0 < total →
      rule1Pct total a = JsNum.num (round1 (a / total * 100))) := by
  refine ⟨?_, ?_, ?_, ?_⟩
  · simp [tablePercentage]
  · intro total htotal
    simp [tablePercentage, jdiv, jmul100, jsToFixed1, htotal, ne_of_gt htotal]
  · intro hne
    by_cases hf : ts.filter (inInterval weekStart (weekStart + 6)) = []
    · simp [getWeeklyReports, hf] at hne
    · have hcats : (getWeeklyReports ts weekStart).expensesByCategory =
          categoryBreakdown (ts.filter (inInterval weekStart (weekStart + 6))) := by
        simp [getWeeklyReports, hf]
      have htot : (getWeeklyReports ts weekStart).totals.expense =
          kindTotal (ts.filter (inInterval weekStart (weekStart + 6))) .expense := by
        simp [getWeeklyReports, hf, formatTotals]
      rw [hcats] at hne
      rw [htot]
      have hexne : (ts.filter (inInterval weekStart (weekStart + 6))).filter
          (isKind .expense) ≠ [] := by
        intro hex
        apply hne
        have := categoryBreakdown_perm (ts.filter (inInterval weekStart (weekStart + 6)))
        rw [categoryBreakdown, hex] at *
        simp [categoryBreakdown, hex, groupByCat, dedupFirst]
      apply sumAmounts_pos hexne
      intro t ht
      exact hpos t (List.mem_of_mem_filter (List.mem_of_mem_filter ht))
  · intro a total htotal
    simp [rule1Pct, jdiv, jmul100, jsToFixed1, ne_of_gt htotal]

/-- Witness for C7: one expense of 5 in the week makes the category list
non-empty and the expense total positive. -/
theorem percentage_guard_spec_witness :
    0 < (getWeeklyReports [⟨.expense, "Food", 5, 0⟩] 0).totals.expense :=
  (percentage_guard_spec 0 [⟨.expense, "Food", 5, 0⟩] 0
      (by intro t ht; simp at ht; rw [ht]; norm_num)).2.2.1
    (by norm_num [getWeeklyReports, inInterval, categoryBreakdown, groupByCat,
      dedupFirst, isKind, List.insertionSort])

/-- C9 counterexample: current week starting on Monday epoch day 0, with
today two days (Wednesday midnight) later: the weekly branch of
`canNavigateNext` returns true although the next week's start, day 7, lies
in the future relative to today. -/
theorem canNavigateNextWeekly_counterexample :
    canNavigateNextWeekly 0 (2 * msPerDay) = true ∧
      2 * msPerDay < (0 + 7) * msPerDay := by
  constructor
  · decide
  · norm_num [msPerDay]

/-- C9 (amended): the month and year branches of `canNavigateNext` return
false exactly when the start of the next interval would lie in the future
relative to today (today being any day of its month/year); the week branch
instead returns true whenever today's instant is past the current week's
start, which can hold while the next week's start is still in the future;
the monthly-only component's timed variant likewise compares at time-of-day
precision and allows the future month at any instant past midnight on the
first. -/
theorem canNavigateNext_spec (c tIdx d yr ty dy w tms tod : ℤ)
    (hd : 1 ≤ d) (hdy : 1 ≤ dy) :
    (canNavigateNextMonthly c tIdx = true ↔ ¬ dateLt (tIdx, d) (c + 1, 1)) ∧
    (canNavigateNextYearly yr ty = true ↔ ¬ dateLt (ty, dy) (yr + 1, 1)) ∧
    (canNavigateNextWeekly w tms = true ↔ w * msPerDay < tms) ∧
    (0 < tod → canNavigateNextTimed c c tod = true ∧ dateLt (c, tod) (c + 1, 0)) := by
  refine ⟨?_, ?_, ?_, ?_⟩
  · simp only [canNavigateNextMonthly, dateLt, decide_eq_true_eq]
    omega
  · simp only [canNavigateNextYearly, dateLt, decide_eq_true_eq]
    omega
  · simp only [canNavigateNextWeekly, decide_eq_true_eq]
  · intro htod
    simp only [canNavigateNextTimed, dateLt, decide_eq_true_eq]
    refine ⟨Or.inr ⟨trivial, htod⟩, Or.inl ?_⟩
    show c < c + 1
    omega

/-- Witness for C9 at concrete dates: month index 5 with today in month 6,
and the timed variant one hour past midnight on the first. -/
theorem canNavigateNext_spec_witness :
    (canNavigateNextMonthly 5 6 = true ↔ ¬ dateLt (6, 15) (5 + 1, 1)) ∧
      canNavigateNextTimed 5 5 3600000 = true ∧ dateLt (5, 3600000) (5 + 1, 0) :=
  ⟨(canNavigateNext_spec 5 6 15 0 0 1 0 0 3600000 (by decide) (by decide)).1,
   (canNavigateNext_spec 5 6 15 0 0 1 0 0 3600000 (by decide) (by decide)).2.2.2
     (by decide)⟩

end FinanceTracker
